import Mathlib

/-!
Shallow embedding of the royalties-distribution contract (src/main.rs) and
proofs about its state machine.

The contract stores six records under fixed keys in a persistent key-value
store (admin, token, lifecycle state, artist registry, listener registry,
royalties pool), and exposes seven operations: init, add_artist,
add_listener, start_distribution, stop_distribution, distribute_royalties,
contribute.

Modelling conventions:
- Account identities (`Address`) are opaque; we use `Nat`.
- The persistent store is a record of `Option`-valued fields, one per
  `DataKey`; `none` is an absent record. Rust's `.unwrap()` on an absent
  value is a trap, modelled by `Failure.missingValue`.
- `require_auth` on an address is modelled by membership of that address in
  the invocation context's list of authorizing identities; a failed check is
  a trap (`Failure.authFailure`).
- Rust `i128` arithmetic is modelled on `Int`; `i128` division truncates
  toward zero, which is `Int.tdiv`, and division by zero is a trap
  (`Failure.divisionByZero`), made explicit in the embedding because Lean's
  total `Int.tdiv` would silently return 0 there.
- The external fungible-token ledger is a balance map plus a log of
  successful transfers. The host executes each operation transactionally
  (all-or-nothing), so an operation returns `Except Failure World`: on any
  failure the pre-state is kept.
-/

/-- Account identity (the SDK `Address`): an opaque identifier. -/
abbrev Address := Nat

/-- State of the royalties distribution (`RoyaltiesState` in src/main.rs). -/
inductive RoyaltiesState where
  | Initialized
  | Active
  | Finished
deriving DecidableEq, Repr

/-- Storage keys this contract uses (`DataKey` in src/main.rs). -/
inductive DataKey where
  | Admin
  | Artists
  | Listeners
  | RoyaltiesState
  | RoyaltiesPool
  | Token
deriving DecidableEq, Repr

/-- Contract error codes (`Error` in src/main.rs). -/
inductive Error where
  | AlreadyInitialized
  | NotInitialized
  | AlreadyActive
  | NotActive
  | InsufficientFunds
  | InvalidArtistAddress
  | InvalidListenerAddress
  | InvalidRoyaltiesPercentage
deriving DecidableEq, Repr

/-- The ways an invocation can abort. `contractError` is a
`panic_with_error!` with one of the contract's own error codes; the others
are host traps: a failed `require_auth`, an `unwrap` of an absent storage
value, an `i128` division by zero, and a failed token transfer. -/
inductive Failure where
  | contractError (e : Error)
  | authFailure (a : Address)
  | missingValue (k : DataKey)
  | divisionByZero
  | tokenInsufficientFunds
deriving DecidableEq, Repr

/-- The contract's persistent storage: one `Option`-valued field per
`DataKey`; `none` means the key has never been set. -/
structure ContractState where
  admin : Option Address
  artists : Option (List Address)
  listeners : Option (List Address)
  royaltiesState : Option RoyaltiesState
  royaltiesPool : Option Int
  token : Option Address
deriving DecidableEq, Repr

/-- Full observable state: the contract storage, the token ledger's
balances, and the log of successful token transfers
(source, destination, amount), oldest first. -/
structure World where
  contract : ContractState
  balance : Address → Int
  transfers : List (Address × Address × Int)

/-- Invocation context: the calling account (`env.current_account()`), the
contract's own custodian address (`env.current_contract_address()`), and the
identities that have authorized this invocation (`require_auth` succeeds
exactly for these). -/
structure Ctx where
  caller : Address
  contractAddr : Address
  auths : List Address

/-- Modelled from the spec: the external Token Mover, absent from src/
(`token::Client::transfer`). It moves a signed amount between two accounts
and fails with an `InsufficientFunds`-class error when the payer lacks
balance; a successful transfer is appended to the log. -/
def tokenTransfer (w : World) (src dst : Address) (amount : Int) :
    Except Failure World :=
  if w.balance src < amount then
    .error .tokenInsufficientFunds
  else
    .ok { w with
          balance := fun a =>
            w.balance a - (if a = src then amount else 0)
              + (if a = dst then amount else 0),
          transfers := w.transfers ++ [(src, dst, amount)] }

/-- Sequential transfers of the same amount from `src` to each address in
`dsts` in order, aborting on the first failure (the loop in
`distribute_royalties`, lines 180-182 of src/main.rs). -/
def transferAll (w : World) (src : Address) (dsts : List Address)
    (amount : Int) : Except Failure World :=
  match dsts with
  | [] => .ok w
  | d :: rest =>
    match tokenTransfer w src d amount with
    | .error f => .error f
    | .ok w' => transferAll w' src rest amount

namespace RoyaltiesContract

/-- `RoyaltiesContract::init` (src/main.rs lines 63-76): requires the new
admin's authorization, fails with `AlreadyInitialized` if the lifecycle
state record already exists, otherwise persists admin, token and state
`Initialized`. -/
def init (ctx : Ctx) (admin token : Address) (w : World) :
    Except Failure World :=
  if admin ∈ ctx.auths then
    if (w.contract.royaltiesState).isSome then
      .error (.contractError .AlreadyInitialized)
    else
      .ok { w with contract :=
            { w.contract with
              admin := some admin,
              token := some token,
              royaltiesState := some .Initialized } }
  else
    .error (.authFailure admin)

/-- `RoyaltiesContract::add_artist` (src/main.rs lines 84-92): unwraps the
stored admin, requires its authorization, then appends the artist to the
artist registry (empty if absent). -/
def add_artist (ctx : Ctx) (artist : Address) (w : World) :
    Except Failure World :=
  match w.contract.admin with
  | none => .error (.missingValue .Admin)
  | some admin =>
    if admin ∈ ctx.auths then
      .ok { w with contract :=
            { w.contract with
              artists := some ((w.contract.artists).getD [] ++ [artist]) } }
    else
      .error (.authFailure admin)

/-- `RoyaltiesContract::add_listener` (src/main.rs lines 100-108): unwraps
the stored admin, requires its authorization, then appends the listener to
the listener registry (empty if absent). -/
def add_listener (ctx : Ctx) (listener : Address) (w : World) :
    Except Failure World :=
  match w.contract.admin with
  | none => .error (.missingValue .Admin)
  | some admin =>
    if admin ∈ ctx.auths then
      .ok { w with contract :=
            { w.contract with
              listeners :=
                some ((w.contract.listeners).getD [] ++ [listener]) } }
    else
      .error (.authFailure admin)

/-- `RoyaltiesContract::start_distribution` (src/main.rs lines 115-129):
admin-authorized; unwraps the lifecycle state; fails with `AlreadyActive`
if it is `Active`, otherwise sets it to `Active`. -/
def start_distribution (ctx : Ctx) (w : World) : Except Failure World :=
  match w.contract.admin with
  | none => .error (.missingValue .Admin)
  | some admin =>
    if admin ∈ ctx.auths then
      match w.contract.royaltiesState with
      | none => .error (.missingValue .RoyaltiesState)
      | some st =>
        if st = .Active then
          .error (.contractError .AlreadyActive)
        else
          .ok { w with contract :=
                { w.contract with royaltiesState := some .Active } }
    else
      .error (.authFailure admin)

/-- `RoyaltiesContract::stop_distribution` (src/main.rs lines 136-150):
admin-authorized; unwraps the lifecycle state; fails with `NotActive` if it
is not `Active`, otherwise sets it to `Finished`. -/
def stop_distribution (ctx : Ctx) (w : World) : Except Failure World :=
  match w.contract.admin with
  | none => .error (.missingValue .Admin)
  | some admin =>
    if admin ∈ ctx.auths then
      match w.contract.royaltiesState with
      | none => .error (.missingValue .RoyaltiesState)
      | some st =>
        if st = .Active then
          .ok { w with contract :=
                { w.contract with royaltiesState := some .Finished } }
        else
          .error (.contractError .NotActive)
    else
      .error (.authFailure admin)

/-- `RoyaltiesContract::distribute_royalties` (src/main.rs lines 157-186):
no caller restriction; unwraps the lifecycle state and fails with
`NotActive` unless it is `Active`; unwraps token, artist registry and
listener registry; reads the pool (0 if absent); divides the pool by the
artist count with `i128` division (a trap when the registry is empty);
transfers the share from the custodian to each artist in registry order;
finally sets the pool to 0. -/
def distribute_royalties (ctx : Ctx) (w : World) : Except Failure World :=
  match w.contract.royaltiesState with
  | none => .error (.missingValue .RoyaltiesState)
  | some st =>
    if st = .Active then
      match w.contract.token with
      | none => .error (.missingValue .Token)
      | some _token =>
        match w.contract.artists with
        | none => .error (.missingValue .Artists)
        | some artists =>
          match w.contract.listeners with
          | none => .error (.missingValue .Listeners)
          | some _listeners =>
            if (artists.length : Int) = 0 then
              .error .divisionByZero
            else
              match transferAll w ctx.contractAddr artists
                  (((w.contract.royaltiesPool).getD 0).tdiv
                    (artists.length : Int)) with
              | .error f => .error f
              | .ok w' =>
                .ok { w' with contract :=
                      { w'.contract with royaltiesPool := some 0 } }
    else
      .error (.contractError .NotActive)

/-- `RoyaltiesContract::contribute` (src/main.rs lines 194-203): no
authorization and no amount check; unwraps the token, transfers `amount`
from the caller to the custodian, then adds `amount` to the pool (0 if
absent). -/
def contribute (ctx : Ctx) (amount : Int) (w : World) :
    Except Failure World :=
  match w.contract.token with
  | none => .error (.missingValue .Token)
  | some _token =>
    match tokenTransfer w ctx.caller ctx.contractAddr amount with
    | .error f => .error f
    | .ok w' =>
      .ok { w' with contract :=
            { w'.contract with
              royaltiesPool :=
                some ((w'.contract.royaltiesPool).getD 0 + amount) } }

end RoyaltiesContract

/-- The public contract surface, as data: one constructor per exposed
operation together with its arguments. -/
inductive Op where
  | init (admin token : Address)
  | add_artist (artist : Address)
  | add_listener (listener : Address)
  | start_distribution
  | stop_distribution
  | distribute_royalties
  | contribute (amount : Int)
deriving DecidableEq, Repr

/-- Whether an operation is `init`. -/
def Op.isInit : Op → Bool
  | .init _ _ => true
  | _ => false

/-- The four operations whose implementations call `require_auth` on the
stored admin: `add_artist`, `add_listener`, `start_distribution`,
`stop_distribution`. -/
def Op.isAdminGated : Op → Bool
  | .add_artist _ => true
  | .add_listener _ => true
  | .start_distribution => true
  | .stop_distribution => true
  | _ => false

/-- Dispatch an operation to its implementation. -/
def Op.apply : Op → Ctx → World → Except Failure World
  | .init a t, ctx, w => RoyaltiesContract.init ctx a t w
  | .add_artist a, ctx, w => RoyaltiesContract.add_artist ctx a w
  | .add_listener l, ctx, w => RoyaltiesContract.add_listener ctx l w
  | .start_distribution, ctx, w => RoyaltiesContract.start_distribution ctx w
  | .stop_distribution, ctx, w => RoyaltiesContract.stop_distribution ctx w
  | .distribute_royalties, ctx, w =>
      RoyaltiesContract.distribute_royalties ctx w
  | .contribute amt, ctx, w => RoyaltiesContract.contribute ctx amt w

/-- Host semantics of one call: the transaction commits on success and is
rolled back (pre-state kept) on any failure. -/
def Op.run (op : Op) (ctx : Ctx) (w : World) : World :=
  match op.apply ctx w with
  | .ok w' => w'
  | .error _ => w

/-- The uninitialized state: no contract record exists yet, every balance
is as given, and no transfer has happened. -/
def initialWorld (bal : Address → Int) : World :=
  { contract :=
      { admin := none, artists := none, listeners := none,
        royaltiesState := none, royaltiesPool := none, token := none },
    balance := bal, transfers := [] }

/-- Running a sequence of invocations from a starting world under the
host's transactional semantics. -/
def runSeq (calls : List (Op × Ctx)) (w : World) : World :=
  match calls with
  | [] => w
  | (op, ctx) :: rest => runSeq rest (op.run ctx w)

/-- The lifecycle transitions a single successful operation can produce:
leave the record unchanged; create it as `Initialized` (init); move
`Initialized` or `Finished` to `Active` (start_distribution); or move
`Active` to `Finished` (stop_distribution). -/
def lifecycleStep (s s' : Option RoyaltiesState) : Prop :=
  s' = s ∨
  (s = none ∧ s' = some .Initialized) ∨
  ((s = some .Initialized ∨ s = some .Finished) ∧ s' = some .Active) ∨
  (s = some .Active ∧ s' = some .Finished)

/-! ## Helper lemmas -/

/-- A successful `transferAll` leaves the contract storage untouched and
appends exactly one log entry per destination, in order. -/
theorem transferAll_ok {src : Address} {amount : Int} :
    ∀ (dsts : List Address) (w w' : World),
      transferAll w src dsts amount = .ok w' →
      w'.contract = w.contract ∧
      w'.transfers = w.transfers ++ dsts.map (fun d => (src, d, amount))
  | [], w, w', h => by
      simp [transferAll] at h
      simp [← h]
  | d :: rest, w, w', h => by
      rw [transferAll] at h
      rcases htr : tokenTransfer w src d amount with f | w1
      · rw [htr] at h; cases h
      · rw [htr] at h
        obtain ⟨hc, ht⟩ := transferAll_ok rest w1 w' h
        unfold tokenTransfer at htr
        split at htr
        · cases htr
        · cases htr
          constructor
          · simpa using hc
          · simpa using ht

/-- If an invocation aborts with any failure, the host rollback keeps the
pre-state. -/
theorem Op.run_of_error (op : Op) (ctx : Ctx) (w : World) (f : Failure)
    (h : op.apply ctx w = .error f) : op.run ctx w = w := by
  unfold Op.run
  rw [h]

/-! ## Claim theorems -/

/-- C7: in every initialized state whose lifecycle state is `Initialized`
or `Finished` (i.e. not `Active`), `distribute_royalties` fails with
`NotActive`, performs no transfers, and leaves the royalties pool and all
other records unchanged. -/
theorem distribute_fails_when_not_active (ctx : Ctx) (w : World)
    (st : RoyaltiesState)
    (hst : w.contract.royaltiesState = some st)
    (h : st = .Initialized ∨ st = .Finished) :
    RoyaltiesContract.distribute_royalties ctx w =
      .error (.contractError .NotActive) ∧
    Op.run .distribute_royalties ctx w = w := by
  have herr : RoyaltiesContract.distribute_royalties ctx w =
      .error (.contractError .NotActive) := by
    unfold RoyaltiesContract.distribute_royalties
    rw [hst]
    rcases h with h | h <;> subst h <;> simp
  exact ⟨herr, by simp [Op.run, Op.apply, herr]⟩

/-- C7 witness: a concrete `Finished` state on which `distribute_royalties`
returns `NotActive` and changes nothing. -/
theorem distribute_fails_when_not_active_witness :
    RoyaltiesContract.distribute_royalties ⟨1, 0, [1]⟩
        ⟨⟨some 1, some [5], some [], some .Finished, some 10, some 2⟩,
          fun _ => 100, []⟩ =
      .error (.contractError .NotActive) ∧
    Op.run .distribute_royalties ⟨1, 0, [1]⟩
        ⟨⟨some 1, some [5], some [], some .Finished, some 10, some 2⟩,
          fun _ => 100, []⟩ =
      ⟨⟨some 1, some [5], some [], some .Finished, some 10, some 2⟩,
        fun _ => 100, []⟩ :=
  distribute_fails_when_not_active ⟨1, 0, [1]⟩
    ⟨⟨some 1, some [5], some [], some .Finished, some 10, some 2⟩,
      fun _ => 100, []⟩ .Finished rfl (Or.inr rfl)

/-- C1 (failing input): with lifecycle state `Active`, an empty artist
registry (listener registry present, pool 10), `distribute_royalties`
traps with an `i128` division by zero instead of reporting a contract
error: the division `royalties_pool / num_artists` at src/main.rs line 177
is unguarded. The host rollback keeps the pool unchanged, but the call
crashes rather than failing with an explicit reported error. -/
theorem distribute_empty_registry_divides_by_zero :
    RoyaltiesContract.distribute_royalties ⟨1, 0, [1]⟩
        ⟨⟨some 1, some [], some [], some .Active, some 10, some 2⟩,
          fun _ => 100, []⟩ =
      .error .divisionByZero ∧
    ∀ e : Error,
      RoyaltiesContract.distribute_royalties ⟨1, 0, [1]⟩
          ⟨⟨some 1, some [], some [], some .Active, some 10, some 2⟩,
            fun _ => 100, []⟩ ≠
        .error (.contractError e) := by
  refine ⟨rfl, fun e h => ?_⟩
  rw [show RoyaltiesContract.distribute_royalties ⟨1, 0, [1]⟩
        ⟨⟨some 1, some [], some [], some .Active, some 10, some 2⟩,
          fun _ => 100, []⟩ =
      .error .divisionByZero from rfl] at h
  simp at h

/-- C10: with lifecycle state `Active` and the token record present, if the
artist registry record has never been written `distribute_royalties` traps
on the unconditional `unwrap` of the absent `Artists` value; and even with
an artist registry present, an absent `Listeners` record makes it trap on
the `unwrap` of the `Listeners` value — the listener registry is required
to exist although listeners play no role in the distribution
calculation. -/
theorem distribute_unwraps_absent_registries (ctx : Ctx) (w : World)
    (t : Address)
    (hst : w.contract.royaltiesState = some .Active)
    (htok : w.contract.token = some t) :
    (w.contract.artists = none →
      RoyaltiesContract.distribute_royalties ctx w =
        .error (.missingValue .Artists)) ∧
    (∀ arts, w.contract.artists = some arts →
      w.contract.listeners = none →
      RoyaltiesContract.distribute_royalties ctx w =
        .error (.missingValue .Listeners)) := by
  constructor
  · intro ha
    unfold RoyaltiesContract.distribute_royalties
    rw [hst, htok, ha]
    simp
  · intro arts ha hl
    unfold RoyaltiesContract.distribute_royalties
    rw [hst, htok, ha, hl]
    simp

/-- C10 witness: a concrete `Active` state whose artist registry exists but
whose listener registry was never written; `distribute_royalties` traps on
the `Listeners` unwrap. -/
theorem distribute_unwraps_absent_registries_witness :
    RoyaltiesContract.distribute_royalties ⟨1, 0, [1]⟩
        ⟨⟨some 1, some [5, 6], none, some .Active, some 10, some 2⟩,
          fun _ => 100, []⟩ =
      .error (.missingValue .Listeners) :=
  (distribute_unwraps_absent_registries ⟨1, 0, [1]⟩
      ⟨⟨some 1, some [5, 6], none, some .Active, some 10, some 2⟩,
        fun _ => 100, []⟩ 2 rfl rfl).2 [5, 6] rfl rfl

/-- C4 counterexample: `init` calls `require_auth` on the new admin before
the `AlreadyInitialized` check (src/main.rs line 64 before lines 66-71), so
after a successful `init(1, 2)`, a second `init(3, 4)` whose admin has not
authorized the call fails with an authorization trap, not with
`AlreadyInitialized`. -/
theorem second_init_can_fail_before_already_initialized :
    (RoyaltiesContract.init ⟨1, 0, [1]⟩ 1 2
        (initialWorld fun _ => 0)).isOk = true ∧
    RoyaltiesContract.init ⟨3, 0, []⟩ 3 4
        (Op.run (.init 1 2) ⟨1, 0, [1]⟩ (initialWorld fun _ => 0)) =
      .error (.authFailure 3) ∧
    Failure.authFailure 3 ≠ .contractError .AlreadyInitialized :=
  ⟨rfl, rfl, by decide⟩

/-- C4 amended: a successful `init(admin1, token1)` sets Admin = `admin1`,
Token = `token1` and lifecycle state `Initialized`; any second `init` then
fails and changes nothing, and it fails with `AlreadyInitialized` whenever
the second admin's authorization succeeds (an unauthorized second admin
trips the earlier `require_auth` trap instead). -/
theorem init_exactly_once (ctx1 ctx2 : Ctx) (a1 t1 a2 t2 : Address)
    (w w1 : World)
    (h1 : RoyaltiesContract.init ctx1 a1 t1 w = .ok w1) :
    w1.contract.admin = some a1 ∧
    w1.contract.token = some t1 ∧
    w1.contract.royaltiesState = some .Initialized ∧
    (∀ w2, RoyaltiesContract.init ctx2 a2 t2 w1 ≠ .ok w2) ∧
    Op.run (.init a2 t2) ctx2 w1 = w1 ∧
    (a2 ∈ ctx2.auths →
      RoyaltiesContract.init ctx2 a2 t2 w1 =
        .error (.contractError .AlreadyInitialized)) := by
  unfold RoyaltiesContract.init at h1
  split at h1
  · split at h1
    · cases h1
    · cases h1
      have hsec : ∃ f, RoyaltiesContract.init ctx2 a2 t2 { w with contract :=
          { w.contract with
            admin := some a1,
            token := some t1,
            royaltiesState := some .Initialized } } = .error f := by
        unfold RoyaltiesContract.init
        split
        · exact ⟨.contractError .AlreadyInitialized, by simp⟩
        · exact ⟨.authFailure a2, rfl⟩
      obtain ⟨f, hf⟩ := hsec
      refine ⟨rfl, rfl, rfl, ?_, ?_, ?_⟩
      · intro w2 h2
        rw [hf] at h2
        cases h2
      · exact Op.run_of_error _ _ _ f hf
      · intro hmem
        unfold RoyaltiesContract.init
        simp [hmem]
  · cases h1

/-- C4 witness: a concrete successful first `init` for which the amended
theorem's conclusions hold. -/
theorem init_exactly_once_witness :
    ((initialWorld fun _ => 0).contract.royaltiesState = none) ∧
    ((Op.run (.init 1 2) ⟨1, 0, [1]⟩
        (initialWorld fun _ => 0)).contract.admin = some 1) := by
  refine ⟨rfl, ?_⟩
  exact (init_exactly_once ⟨1, 0, [1]⟩ ⟨3, 0, [3]⟩ 1 2 3 4
    (initialWorld fun _ => 0)
    (Op.run (.init 1 2) ⟨1, 0, [1]⟩ (initialWorld fun _ => 0)) rfl).1

/-- C5: in every initialized state (stored admin `a`), each of
`add_artist`, `add_listener`, `start_distribution` and `stop_distribution`
succeeds only when the invocation is authorized by `a`; when it is not,
the call fails with an authorization trap on `a` and mutates no record. -/
theorem admin_ops_require_admin_auth (op : Op) (ctx : Ctx) (w : World)
    (a : Address)
    (hgated : op.isAdminGated = true)
    (hadmin : w.contract.admin = some a) :
    ((∃ w', op.apply ctx w = .ok w') → a ∈ ctx.auths) ∧
    (a ∉ ctx.auths →
      op.apply ctx w = .error (.authFailure a) ∧ op.run ctx w = w) := by
  have herr : a ∉ ctx.auths → op.apply ctx w = .error (.authFailure a) := by
    intro hna
    cases op with
    | init _ _ => cases hgated
    | contribute _ => cases hgated
    | distribute_royalties => cases hgated
    | add_artist artist =>
        simp only [Op.apply]
        unfold RoyaltiesContract.add_artist
        rw [hadmin]
        simp [hna]
    | add_listener listener =>
        simp only [Op.apply]
        unfold RoyaltiesContract.add_listener
        rw [hadmin]
        simp [hna]
    | start_distribution =>
        simp only [Op.apply]
        unfold RoyaltiesContract.start_distribution
        rw [hadmin]
        simp [hna]
    | stop_distribution =>
        simp only [Op.apply]
        unfold RoyaltiesContract.stop_distribution
        rw [hadmin]
        simp [hna]
  constructor
  · intro ⟨w', hok⟩
    by_contra hna
    rw [herr hna] at hok
    cases hok
  · intro hna
    exact ⟨herr hna, Op.run_of_error _ _ _ _ (herr hna)⟩

/-- C5 witness: in a concrete initialized state with admin 1, an
invocation of `add_artist` not authorized by 1 fails with the
authorization trap and leaves the state unchanged. -/
theorem admin_ops_require_admin_auth_witness :
    Op.apply (.add_artist 7) ⟨2, 0, [2]⟩
        ⟨⟨some 1, none, none, some .Initialized, none, some 2⟩,
          fun _ => 0, []⟩ =
      .error (.authFailure 1) ∧
    Op.run (.add_artist 7) ⟨2, 0, [2]⟩
        ⟨⟨some 1, none, none, some .Initialized, none, some 2⟩,
          fun _ => 0, []⟩ =
      ⟨⟨some 1, none, none, some .Initialized, none, some 2⟩,
        fun _ => 0, []⟩ :=
  (admin_ops_require_admin_auth (.add_artist 7) ⟨2, 0, [2]⟩
      ⟨⟨some 1, none, none, some .Initialized, none, some 2⟩,
        fun _ => 0, []⟩ 1 rfl rfl).2 (by decide)

/-- C6: whenever `contribute(amount)` succeeds, the royalties pool record
becomes its previous value (0 if absent) plus exactly `amount`; and for
every lifecycle state — `Initialized`, `Active` or `Finished` — there is a
state with that lifecycle value in which `contribute` succeeds: the
operation reads the lifecycle state nowhere. -/
theorem contribute_increases_pool_in_any_state (ctx : Ctx) (amount : Int)
    (w w' : World)
    (h : RoyaltiesContract.contribute ctx amount w = .ok w') :
    w'.contract.royaltiesPool =
      some ((w.contract.royaltiesPool).getD 0 + amount) ∧
    ∀ st : RoyaltiesState, ∃ (ctx2 : Ctx) (w2 w2' : World),
      w2.contract.royaltiesState = some st ∧
      RoyaltiesContract.contribute ctx2 amount w2 = .ok w2' := by
  constructor
  · unfold RoyaltiesContract.contribute at h
    rcases htok : w.contract.token with _ | t
    · rw [htok] at h; cases h
    · rw [htok] at h
      rcases htr : tokenTransfer w ctx.caller ctx.contractAddr amount
          with f | w1
      · rw [htr] at h; cases h
      · rw [htr] at h
        cases h
        have hc : w1.contract = w.contract := by
          unfold tokenTransfer at htr
          split at htr
          · cases htr
          · cases htr; rfl
        simp [hc]
  · intro st
    have hok : ∃ w2',
        RoyaltiesContract.contribute ⟨1, 0, []⟩ amount
          ⟨⟨none, none, none, some st, none, some 2⟩, fun _ => amount, []⟩ =
          .ok w2' := by
      unfold RoyaltiesContract.contribute tokenTransfer
      simp
    obtain ⟨w2', hw2'⟩ := hok
    exact ⟨⟨1, 0, []⟩, _, w2', rfl, hw2'⟩

/-- C6 witness: a concrete successful `contribute(7)` on a `Finished`
state, whose pool record becomes `0 + 7`. -/
theorem contribute_increases_pool_in_any_state_witness :
    (Op.run (.contribute 7) ⟨1, 0, []⟩
        ⟨⟨some 1, none, none, some .Finished, none, some 2⟩,
          fun _ => 10, []⟩).contract.royaltiesPool = some ((0 : Int) + 7) :=
  (contribute_increases_pool_in_any_state ⟨1, 0, []⟩ 7
    ⟨⟨some 1, none, none, some .Finished, none, some 2⟩, fun _ => 10, []⟩
    (Op.run (.contribute 7) ⟨1, 0, []⟩
      ⟨⟨some 1, none, none, some .Finished, none, some 2⟩,
        fun _ => 10, []⟩) rfl).1

/-- C8 (failing input): `contribute` performs no amount validation
(src/main.rs lines 194-203). On an initialized state with every balance 0
and pool 10, `contribute(0)` succeeds instead of failing; and
`contribute(-5)` also succeeds — the modelled Token Mover moves the signed
amount whenever the payer's balance covers it — and the pool drops from 10
to 5, so a non-positive amount is neither rejected nor pool-neutral. -/
theorem contribute_accepts_nonpositive_amount :
    (RoyaltiesContract.contribute ⟨1, 0, []⟩ 0
        ⟨⟨some 1, none, none, some .Active, some 10, some 2⟩,
          fun _ => 0, []⟩).isOk = true ∧
    (RoyaltiesContract.contribute ⟨1, 0, []⟩ (-5)
        ⟨⟨some 1, none, none, some .Active, some 10, some 2⟩,
          fun _ => 0, []⟩).isOk = true ∧
    (Op.run (.contribute (-5)) ⟨1, 0, []⟩
        ⟨⟨some 1, none, none, some .Active, some 10, some 2⟩,
          fun _ => 0, []⟩).contract.royaltiesPool = some 5 := by
  refine ⟨rfl, rfl, ?_⟩
  show some ((10 : Int) + (-5)) = some 5
  norm_num

/-- Inversion of a successful `init`: the lifecycle record was absent, and
the call set admin, token and state `Initialized`. -/
theorem init_ok {ctx : Ctx} {a t : Address} {w w' : World}
    (h : RoyaltiesContract.init ctx a t w = .ok w') :
    w.contract.royaltiesState = none ∧
    w'.contract = { w.contract with
      admin := some a, token := some t,
      royaltiesState := some .Initialized } := by
  unfold RoyaltiesContract.init at h
  split at h
  · split at h
    · cases h
    · cases h
      exact ⟨Option.not_isSome_iff_eq_none.mp (by assumption), rfl⟩
  · cases h

/-- Inversion of a successful `add_artist`: only the artist registry
changed, by appending the new artist. -/
theorem add_artist_ok {ctx : Ctx} {a : Address} {w w' : World}
    (h : RoyaltiesContract.add_artist ctx a w = .ok w') :
    w'.contract = { w.contract with
      artists := some ((w.contract.artists).getD [] ++ [a]) } := by
  unfold RoyaltiesContract.add_artist at h
  split at h
  · cases h
  · split at h
    · cases h; rfl
    · cases h

/-- Inversion of a successful `add_listener`: only the listener registry
changed, by appending the new listener. -/
theorem add_listener_ok {ctx : Ctx} {l : Address} {w w' : World}
    (h : RoyaltiesContract.add_listener ctx l w = .ok w') :
    w'.contract = { w.contract with
      listeners := some ((w.contract.listeners).getD [] ++ [l]) } := by
  unfold RoyaltiesContract.add_listener at h
  split at h
  · cases h
  · split at h
    · cases h; rfl
    · cases h

/-- Inversion of a successful `start_distribution`: the lifecycle record
existed and was not `Active`, and only it changed, to `Active`. -/
theorem start_distribution_ok {ctx : Ctx} {w w' : World}
    (h : RoyaltiesContract.start_distribution ctx w = .ok w') :
    (∃ st, w.contract.royaltiesState = some st ∧ st ≠ .Active) ∧
    w'.contract = { w.contract with royaltiesState := some .Active } := by
  unfold RoyaltiesContract.start_distribution at h
  split at h
  · cases h
  · split at h
    · split at h
      · cases h
      · split at h
        · cases h
        · cases h
          exact ⟨⟨_, by assumption, by assumption⟩, rfl⟩
    · cases h

/-- Inversion of a successful `stop_distribution`: the lifecycle record
was `Active`, and only it changed, to `Finished`. -/
theorem stop_distribution_ok {ctx : Ctx} {w w' : World}
    (h : RoyaltiesContract.stop_distribution ctx w = .ok w') :
    w.contract.royaltiesState = some .Active ∧
    w'.contract = { w.contract with royaltiesState := some .Finished } := by
  unfold RoyaltiesContract.stop_distribution at h
  split at h
  · cases h
  · split at h
    · split at h
      · cases h
      · rename_i st hst
        split at h
        · rename_i hact
          cases h
          subst hact
          exact ⟨hst, rfl⟩
        · cases h
    · cases h

/-- Inversion of a successful `contribute`: only the pool record changed,
to its previous value (0 if absent) plus the amount. -/
theorem contribute_ok {ctx : Ctx} {amount : Int} {w w' : World}
    (h : RoyaltiesContract.contribute ctx amount w = .ok w') :
    w'.contract = { w.contract with
      royaltiesPool := some ((w.contract.royaltiesPool).getD 0 + amount) } := by
  unfold RoyaltiesContract.contribute at h
  split at h
  · cases h
  · rcases htr : tokenTransfer w ctx.caller ctx.contractAddr amount
        with f | w1
    · rw [htr] at h; cases h
    · rw [htr] at h
      cases h
      have hc : w1.contract = w.contract := by
        unfold tokenTransfer at htr
        split at htr
        · cases htr
        · cases htr; rfl
      simp [hc]

/-- Inversion of a successful `distribute_royalties`: the state was
`Active`, the artist registry existed and was non-empty, the pool record
was set to 0 with nothing else in storage changed, and one transfer of the
truncated equal share was logged from the custodian to each artist in
registry order. -/
theorem distribute_royalties_ok {ctx : Ctx} {w w' : World}
    (h : RoyaltiesContract.distribute_royalties ctx w = .ok w') :
    w.contract.royaltiesState = some .Active ∧
    ∃ arts, w.contract.artists = some arts ∧ arts ≠ [] ∧
      w'.contract = { w.contract with royaltiesPool := some 0 } ∧
      w'.transfers = w.transfers ++ arts.map (fun a =>
        (ctx.contractAddr, a,
          ((w.contract.royaltiesPool).getD 0).tdiv (arts.length : Int))) := by
  unfold RoyaltiesContract.distribute_royalties at h
  split at h
  · cases h
  · rename_i st hst
    split at h
    · rename_i hact
      subst hact
      split at h
      · cases h
      · rename_i t htok
        split at h
        · cases h
        · rename_i arts harts
          split at h
          · cases h
          · rename_i lis hlis
            split at h
            · cases h
            · rename_i hn
              split at h
              · cases h
              · rename_i w1 htr
                cases h
                obtain ⟨hc, ht⟩ := transferAll_ok arts w w1 htr
                have hne : arts ≠ [] := by
                  intro hnil
                  subst hnil
                  simp at hn
                refine ⟨hst, arts, harts, hne, ?_, ?_⟩
                · simp [hc]
                · simpa using ht
    · cases h

/-- C2 counterexample: from the uninitialized state, the sequence
init, start_distribution, stop_distribution reaches `Finished`, and one
more start_distribution moves the state back to `Active`:
`start_distribution` only rejects when the state is already `Active`
(src/main.rs lines 124-126), so it regresses `Finished` to `Active`. -/
theorem lifecycle_can_regress_from_finished :
    (runSeq [(.init 1 2, ⟨1, 0, [1]⟩), (.start_distribution, ⟨1, 0, [1]⟩),
        (.stop_distribution, ⟨1, 0, [1]⟩)]
        (initialWorld fun _ => 0)).contract.royaltiesState =
      some .Finished ∧
    (runSeq [(.init 1 2, ⟨1, 0, [1]⟩), (.start_distribution, ⟨1, 0, [1]⟩),
        (.stop_distribution, ⟨1, 0, [1]⟩), (.start_distribution, ⟨1, 0, [1]⟩)]
        (initialWorld fun _ => 0)).contract.royaltiesState =
      some .Active :=
  ⟨rfl, rfl⟩

/-- C2 amended: every successful operation moves the lifecycle record
along `absent → Initialized → Active → Finished`, except that
`start_distribution` may also move `Finished` back to `Active`; this
restart is the only backward move, and only `start_distribution` performs
it (`start_distribution` still fails when the state is already `Active`,
and `stop_distribution` never returns the state to `Active`). -/
theorem lifecycle_transitions (op : Op) (ctx : Ctx) (w w' : World)
    (h : op.apply ctx w = .ok w') :
    lifecycleStep (w.contract.royaltiesState)
      (w'.contract.royaltiesState) ∧
    (w.contract.royaltiesState = some .Finished ∧
        w'.contract.royaltiesState = some .Active →
      op = .start_distribution) := by
  cases op with
  | init a t =>
      obtain ⟨hnone, hc⟩ := init_ok h
      rw [hnone, hc]
      refine ⟨Or.inr (Or.inl ⟨rfl, rfl⟩), ?_⟩
      rintro ⟨hfin, _⟩
      cases hfin
  | add_artist a =>
      have hc := add_artist_ok h
      rw [hc]
      refine ⟨Or.inl rfl, ?_⟩
      rintro ⟨hfin, hact⟩
      rw [hfin] at hact
      cases hact
  | add_listener l =>
      have hc := add_listener_ok h
      rw [hc]
      refine ⟨Or.inl rfl, ?_⟩
      rintro ⟨hfin, hact⟩
      rw [hfin] at hact
      cases hact
  | start_distribution =>
      obtain ⟨⟨st, hst, hne⟩, hc⟩ := start_distribution_ok h
      rw [hst, hc]
      refine ⟨Or.inr (Or.inr (Or.inl ⟨?_, rfl⟩)), fun _ => rfl⟩
      cases st with
      | Initialized => exact Or.inl rfl
      | Active => exact absurd rfl hne
      | Finished => exact Or.inr rfl
  | stop_distribution =>
      obtain ⟨hst, hc⟩ := stop_distribution_ok h
      rw [hst, hc]
      refine ⟨Or.inr (Or.inr (Or.inr ⟨rfl, rfl⟩)), ?_⟩
      rintro ⟨hfin, _⟩
      simp at hfin
  | distribute_royalties =>
      obtain ⟨hst, arts, harts, hne, hc, ht⟩ := distribute_royalties_ok h
      rw [hc]
      refine ⟨Or.inl rfl, ?_⟩
      rintro ⟨hfin, _⟩
      rw [hst] at hfin
      simp at hfin
  | contribute amt =>
      have hc := contribute_ok h
      rw [hc]
      refine ⟨Or.inl rfl, ?_⟩
      rintro ⟨hfin, hact⟩
      rw [hfin] at hact
      cases hact

/-- C2 witness: a concrete successful `stop_distribution` whose lifecycle
move `Active → Finished` is an allowed step that is not the
`Finished → Active` restart. -/
theorem lifecycle_transitions_witness :
    lifecycleStep (some .Active) (some .Finished) ∧
    ((some RoyaltiesState.Active = some RoyaltiesState.Finished ∧
        some RoyaltiesState.Finished = some RoyaltiesState.Active) →
      Op.stop_distribution = Op.start_distribution) :=
  lifecycle_transitions .stop_distribution ⟨1, 0, [1]⟩
    ⟨⟨some 1, none, none, some .Active, none, some 2⟩, fun _ => 0, []⟩
    ⟨⟨some 1, none, none, some .Finished, none, some 2⟩, fun _ => 0, []⟩
    rfl

/-- C9: every operation other than `init` — add_artist, add_listener,
start_distribution, stop_distribution, contribute, distribute_royalties —
leaves the stored Admin and Token Reference records exactly as they were,
whether the call succeeds or fails. -/
theorem non_init_ops_preserve_admin_and_token (op : Op) (ctx : Ctx)
    (w : World) (h : op.isInit = false) :
    (op.run ctx w).contract.admin = w.contract.admin ∧
    (op.run ctx w).contract.token = w.contract.token := by
  rcases hres : op.apply ctx w with f | w'
  · rw [Op.run_of_error op ctx w f hres]
    exact ⟨rfl, rfl⟩
  · have hrun : op.run ctx w = w' := by
      unfold Op.run
      rw [hres]
    rw [hrun]
    cases op with
    | init a t => cases h
    | add_artist a =>
        rw [add_artist_ok hres]
        exact ⟨rfl, rfl⟩
    | add_listener l =>
        rw [add_listener_ok hres]
        exact ⟨rfl, rfl⟩
    | start_distribution =>
        rw [(start_distribution_ok hres).2]
        exact ⟨rfl, rfl⟩
    | stop_distribution =>
        rw [(stop_distribution_ok hres).2]
        exact ⟨rfl, rfl⟩
    | distribute_royalties =>
        obtain ⟨_, _, _, _, hc, _⟩ := distribute_royalties_ok hres
        rw [hc]
        exact ⟨rfl, rfl⟩
    | contribute amt =>
        rw [contribute_ok hres]
        exact ⟨rfl, rfl⟩

/-- C9 witness: a concrete successful `add_artist` call that keeps the
stored admin and token. -/
theorem non_init_ops_preserve_admin_and_token_witness :
    (Op.run (.add_artist 7) ⟨1, 0, [1]⟩
        ⟨⟨some 1, none, none, some .Initialized, none, some 2⟩,
          fun _ => 0, []⟩).contract.admin = some 1 ∧
    (Op.run (.add_artist 7) ⟨1, 0, [1]⟩
        ⟨⟨some 1, none, none, some .Initialized, none, some 2⟩,
          fun _ => 0, []⟩).contract.token = some 2 :=
  non_init_ops_preserve_admin_and_token (.add_artist 7) ⟨1, 0, [1]⟩
    ⟨⟨some 1, none, none, some .Initialized, none, some 2⟩,
      fun _ => 0, []⟩ rfl

/-- C3: from a state with lifecycle `Active`, pool `P ≥ 0` and a non-empty
artist registry `arts` (`N = arts.length` entries), a successful
`distribute_royalties` logs exactly one transfer of `⌊P / N⌋` from the
custodian to each registry entry, in registry order; the total transferred,
`N * ⌊P / N⌋`, is at most `P`; and the pool record is 0 afterwards. -/
theorem distribute_equal_split (ctx : Ctx) (w w' : World) (P : Int)
    (arts : List Address)
    (hst : w.contract.royaltiesState = some .Active)
    (hpool : (w.contract.royaltiesPool).getD 0 = P)
    (hP : 0 ≤ P)
    (harts : w.contract.artists = some arts)
    (hne : arts ≠ [])
    (h : RoyaltiesContract.distribute_royalties ctx w = .ok w') :
    w'.transfers = w.transfers ++ arts.map (fun a =>
      (ctx.contractAddr, a, P / (arts.length : Int))) ∧
    (arts.length : Int) * (P / (arts.length : Int)) ≤ P ∧
    w'.contract.royaltiesPool = some 0 := by
  obtain ⟨_, arts2, harts2, hne2, hc, ht⟩ := distribute_royalties_ok h
  rw [harts] at harts2
  cases harts2
  have hNpos : (0 : Int) < (arts.length : Int) := by
    have hlen : 0 < arts.length := List.length_pos.mpr hne
    exact_mod_cast hlen
  have hdiv : ((w.contract.royaltiesPool).getD 0).tdiv ((arts.length : Int))
      = P / (arts.length : Int) := by
    rw [hpool]
    exact Int.tdiv_eq_ediv hP (le_of_lt hNpos)
  refine ⟨?_, ?_, ?_⟩
  · rw [ht]
    simp only [hdiv]
  · have hsum := Int.ediv_add_emod P (arts.length : Int)
    have hmod := Int.emod_nonneg P (ne_of_gt hNpos)
    linarith
  · rw [hc]

/-- C3 witness: pool 100, two artists 5 and 6 — each receives 50 from the
custodian (address 0), the total 100 is at most the pool, and the pool
record ends at 0. -/
theorem distribute_equal_split_witness :
    (Op.run .distribute_royalties ⟨1, 0, [1]⟩
        ⟨⟨some 1, some [5, 6], some [], some .Active, some 100, some 2⟩,
          fun _ => 100, []⟩).transfers =
      [(0, 5, 50), (0, 6, 50)] ∧
    ((2 : Int) * 50 ≤ 100) ∧
    (Op.run .distribute_royalties ⟨1, 0, [1]⟩
        ⟨⟨some 1, some [5, 6], some [], some .Active, some 100, some 2⟩,
          fun _ => 100, []⟩).contract.royaltiesPool = some 0 := by
  exact distribute_equal_split ⟨1, 0, [1]⟩
    ⟨⟨some 1, some [5, 6], some [], some .Active, some 100, some 2⟩,
      fun _ => 100, []⟩
    (Op.run .distribute_royalties ⟨1, 0, [1]⟩
      ⟨⟨some 1, some [5, 6], some [], some .Active, some 100, some 2⟩,
        fun _ => 100, []⟩)
    100 [5, 6] rfl rfl (by decide) rfl (by decide) rfl
